import Mathlib

/-!
Verification of the DFIR-Copilot Splunk app (Python sources) against its
natural-language specification.

The development shallowly embeds the three Python source files:

* `DFIRCopilot/bin/llmhandler.py` — the streaming search command
  (`LLMHandlerCommand`): chunking, prompt assembly, summary extraction,
  result-record shaping.  The Ollama HTTP endpoint is modelled as an
  oracle `Nat → String → Except String String` mapping (call index,
  prompt) to either a response text (`.ok`) or the message of the
  exception `_call_ollama` raises (`.error`).
* `DFIRCopilot/bin/dfircopilot_config_handler.py` — the REST config
  handler: `handleEdit`, `_test_ollama_connection`,
  `_fetch_available_models`, `_write_config`.  HTTP GET responses are
  modelled as `Except Unit HttpResp`; the persisted files as an explicit
  `FsState` value threaded through `handleEdit`.

Python strings are Lean `String`s (code-point lists); Python dict-shaped
records are association lists `List (String × String)`.  Wall-clock
fields (`_time = time.time()`) are omitted from the output-record model:
no claim mentions them.
-/

namespace DFIRCopilot

/-- Python substring test `needle in hay` over code-point lists: true iff
`needle` occurs contiguously in the list. -/
def listContains (needle : List Char) : List Char → Bool
  | [] => needle.isEmpty
  | c :: rest => needle.isPrefixOf (c :: rest) || listContains needle rest

/-- Python `needle in hay` on strings. -/
def strContains (hay needle : String) : Bool :=
  listContains needle.data hay.data

/-- Python `s.split('\n')` over code-point lists: the segments between
newline characters (always at least one, possibly empty, segment). -/
def splitNewline : List Char → List (List Char)
  | [] => [[]]
  | c :: rest =>
    if c = '\n' then [] :: splitNewline rest
    else
      match splitNewline rest with
      | [] => [[c]]
      | l :: ls => (c :: l) :: ls

/-- Python `response.split('\n')` on strings. -/
def splitLines (s : String) : List String :=
  (splitNewline s.data).map List.asString

/-- Python `s.strip()`: whitespace removed from both ends (structural
recursion so that concrete runs evaluate in the kernel). -/
def pyStrip (s : String) : String :=
  List.asString (((s.data.dropWhile Char.isWhitespace).reverse.dropWhile Char.isWhitespace).reverse)

/-- Python `s.startswith(pre)`. -/
def pyStartsWith (s pre : String) : Bool :=
  pre.data.isPrefixOf s.data

/-- Python `sep.join(parts)` (structural recursion). -/
def joinSep (sep : String) : List String → String
  | [] => ""
  | [x] => x
  | x :: xs => x ++ sep ++ joinSep sep xs

/-- Python `response[:200].strip()`: first 200 code points, whitespace
stripped from both ends. -/
def first200trim (s : String) : String :=
  pyStrip (List.asString (s.data.take 200))

/-- The marker test of `_extract_summary`:
`'Summary' in line or 'SUMMARY' in line` (case-sensitive substring
tests, llmhandler.py lines 323 and 329). -/
def summaryMarker (s : String) : Bool :=
  strContains s "Summary" || strContains s "SUMMARY"

/-- The line-collecting loop of `_extract_summary` (llmhandler.py lines
328-336): a marker line sets `in_summary` and is skipped; afterwards
each non-empty line not starting with a hash sign is appended stripped;
the loop breaks once more than 5 lines are collected. -/
def collectSummary : List String → Bool → List String → List String
  | [], _, acc => acc
  | line :: rest, inSummary, acc =>
    if summaryMarker line then collectSummary rest true acc
    else if inSummary then
      let acc' := if pyStrip line != "" && !(pyStartsWith line "#") then acc ++ [pyStrip line] else acc
      if acc'.length > 5 then acc' else collectSummary rest true acc'
    else collectSummary rest inSummary acc

/-- `LLMHandlerCommand._extract_summary` (llmhandler.py lines 317-344). -/
def extract_summary (response : String) : String :=
  if summaryMarker response then
    joinSep " " (collectSummary (splitLines response) false [])
  else
    first200trim response

/-- An input record: the ordered field-name/value pairs of one Splunk
event (a Python dict, so keys are distinct in any real input). -/
abbrev Record := List (String × String)

/-- First-match association lookup, the model of Python dict access
`event[key]` (`some`) and containment `key in event`. -/
def lookupField : List (String × String) → String → Option String
  | [], _ => none
  | (k, v) :: rest, key => if k = key then some v else lookupField rest key

/-- The field filter of `_format_events` (llmhandler.py line 236):
`not key.startswith('_') or key in ['_time', '_raw']`. -/
def keepField (k : String) : Bool :=
  !(pyStartsWith k "_") || (k == "_time") || (k == "_raw")

/-- Python tuple comparison on `(key, value)` string pairs, the order
used by `sorted(event.items())`: lexicographic by key, then value. -/
def pairLE (a b : String × String) : Prop :=
  a.1 < b.1 ∨ (a.1 = b.1 ∧ a.2 ≤ b.2)

instance : DecidableRel pairLE := fun a b =>
  inferInstanceAs (Decidable (a.1 < b.1 ∨ (a.1 = b.1 ∧ a.2 ≤ b.2)))

/-- One event block of `_format_events` (llmhandler.py lines 226-239):
a header with the 1-based index, a timestamp line when the record has a
`_time` field, then each kept field as an indented `key: value` line,
fields sorted by Python tuple comparison.  `insertionSort` with the
total antisymmetric order `pairLE` produces the unique sorted
permutation, hence agrees with Python `sorted`. -/
def format_event (idx : Nat) (event : Record) : String :=
  let header := "Event " ++ toString idx ++ ":\n"
  let tsLine :=
    match lookupField event "_time" with
    | some v => "  Timestamp: " ++ v ++ "\n"
    | none => ""
  let fieldLines :=
    ((List.insertionSort pairLE event).filter fun kv => keepField kv.1).map
      fun kv => "  " ++ kv.1 ++ ": " ++ kv.2 ++ "\n"
  header ++ tsLine ++ String.join fieldLines

/-- Python `enumerate(events, 1)`. -/
def enumFromOne : Nat → List Record → List (Nat × Record)
  | _, [] => []
  | i, e :: rest => (i, e) :: enumFromOne (i + 1) rest

/-- `LLMHandlerCommand._format_events` (llmhandler.py lines 220-241). -/
def format_events (events : List Record) : String :=
  joinSep "\n" ((enumFromOne 1 events).map fun p => format_event p.1 p.2)

/-- The configuration values `_build_prompt` reads (loaded from
`dfirvault.conf` merged over hard-coded defaults; both keys are always
present in the default dict of `_load_config`). -/
structure Config where
  system_prompt : String
  analysis_mode : String
  deriving DecidableEq

/-- The command options of `LLMHandlerCommand` used by the pipeline:
the required user prompt, the analysis mode (validated to a fixed set,
default `forensic`), and the chunk size (validated to 1..1000,
default 10). -/
structure Cmd where
  prompt : String
  analysis_mode : String
  chunk_size : Nat
  deriving DecidableEq

/-- The `mode_instructions` table of `_build_prompt` (llmhandler.py
lines 251-256), with the `.get(mode, '')` fallback. -/
def mode_instructions (mode : String) : String :=
  if mode = "summary" then "Provide a concise summary of key findings."
  else if mode = "detailed" then "Provide detailed analysis of each significant event."
  else if mode = "forensic" then "Focus on forensic artifacts, timeline reconstruction, and evidence preservation. Identify potential indicators of compromise."
  else if mode = "threat_intelligence" then "Focus on threat actor TTPs, IOCs, and attribution indicators."
  else ""

/-- The fixed leading parts of the prompt (llmhandler.py lines 258-263). -/
def promptHead (cmd : Cmd) (config : Config) : List String :=
  let analysis_mode := if cmd.analysis_mode ≠ "" then cmd.analysis_mode else config.analysis_mode
  ["System: " ++ config.system_prompt,
   "\nAnalysis Mode: " ++ analysis_mode,
   "\n" ++ mode_instructions analysis_mode,
   "\nUser Question: " ++ cmd.prompt]

/-- The fixed trailing parts of the prompt (llmhandler.py lines 273-281). -/
def promptTail (formatted_events : String) : List String :=
  ["\n\n" ++ formatted_events,
   "\n\nProvide your analysis in a structured format:",
   "1. Key Findings",
   "2. Anomalies & IOCs",
   "3. Investigation Recommendations",
   "4. Summary (concise overview for context carryover)"]

/-- The prompt including the previous-context section (the then-branch
of llmhandler.py lines 266-269). -/
def prompt_with_context (cmd : Cmd) (config : Config) (formatted_events : String)
    (chunk_number : Nat) (previous_summary : String) : String :=
  joinSep "\n"
    (promptHead cmd config ++
     ["\n\nPrevious Analysis Context (Chunk " ++ toString (chunk_number - 1) ++ "):",
      previous_summary,
      "\n\nNow analyzing Chunk " ++ toString chunk_number ++ ":"] ++
     promptTail formatted_events)

/-- The prompt without any previous-context section (the else-branch of
llmhandler.py lines 270-271).  No argument carries any previous summary. -/
def prompt_without_context (cmd : Cmd) (config : Config) (formatted_events : String)
    (chunk_number : Nat) : String :=
  joinSep "\n"
    (promptHead cmd config ++
     ["\n\nAnalyzing Chunk " ++ toString chunk_number ++ ":"] ++
     promptTail formatted_events)

/-- `LLMHandlerCommand._build_prompt` (llmhandler.py lines 243-283).
The previous-context section is included iff the carried summary is a
non-empty string and the chunk number exceeds 1 (`if previous_summary
and chunk_number > 1`). -/
def build_prompt (cmd : Cmd) (config : Config) (formatted_events : String)
    (chunk_number : Nat) (previous_summary : String) : String :=
  if previous_summary ≠ "" ∧ chunk_number > 1 then
    prompt_with_context cmd config formatted_events chunk_number previous_summary
  else
    prompt_without_context cmd config formatted_events chunk_number

/-- Outcome of one `_call_ollama` invocation: `.ok` carries the response
text, `.error` the message of the exception raised (timeout, connection
failure, or other request error; llmhandler.py lines 310-315). -/
abbrev CallOutcome := Except String String

/-- The LLM endpoint as an oracle: call index (number of prior calls in
this stream invocation) and prompt determine the outcome. -/
abbrev Oracle := Nat → String → CallOutcome

/-- The analysis-result dict built by `_process_chunk` and
`_generate_final_synthesis`; absent dict keys are `none`. -/
structure AnalysisResult where
  chunk : String
  event_count : Option Nat
  response : Option String
  summary : Option String
  error : Option String
  status : String
  deriving DecidableEq

/-- `LLMHandlerCommand._process_chunk` (llmhandler.py lines 176-218),
given the outcome of its single `_call_ollama` invocation: a success
dict with the response and its extracted summary, or an error dict
carrying the failure description (no retry — one call per chunk). -/
def process_chunk_result (events : List Record) (chunk_number : Nat)
    (outcome : CallOutcome) : AnalysisResult :=
  match outcome with
  | .ok response =>
    { chunk := toString chunk_number, event_count := some events.length,
      response := some response, summary := some (extract_summary response),
      error := none, status := "success" }
  | .error e =>
    { chunk := toString chunk_number, event_count := some events.length,
      response := none, summary := none, error := some e, status := "error" }

/-- `LLMHandlerCommand._generate_final_synthesis` builds its prompt from
the chunk count and the user prompt alone (llmhandler.py lines 351-363). -/
def final_synthesis_prompt (total_chunks : Nat) (userPrompt : String) : String :=
  "\nYou have analyzed " ++ toString total_chunks ++ " chunks of security/DFIR data.\n\nBased on the user's question: \"" ++ userPrompt ++ "\"\n\nProvide a final comprehensive synthesis that:\n1. Integrates findings across all chunks\n2. Identifies patterns and correlations\n3. Prioritizes critical findings\n4. Provides actionable recommendations for the investigation\n\nFocus on the most significant security and forensic insights.\n"

/-- `LLMHandlerCommand._generate_final_synthesis` (llmhandler.py lines
346-380) given the outcome of its `_call_ollama` invocation.  The error
dict has no `event_count` and no `summary` key. -/
def generate_final_synthesis (total_chunks : Nat) (outcome : CallOutcome) : AnalysisResult :=
  match outcome with
  | .ok response =>
    { chunk := "FINAL", event_count := some total_chunks, response := some response,
      summary := some "Final synthesis across all analyzed chunks",
      error := none, status := "success" }
  | .error e =>
    { chunk := "FINAL", event_count := none, response := none, summary := none,
      error := some e, status := "error" }

/-- The output record shaped by `_create_result_record` (llmhandler.py
lines 382-396).  The wall-clock `_time` field is omitted. -/
structure ResultRecord where
  llm_chunk : String
  llm_status : String
  llm_event_count : Nat
  llm_response : String
  llm_summary : Option String
  deriving DecidableEq

/-- `LLMHandlerCommand._create_result_record`: `llm_event_count` falls
back to 0 and `llm_response` to the error text when the corresponding
dict keys are absent; `llm_summary` is present iff the dict has a
`summary` key. -/
def create_result_record (result : AnalysisResult) (chunk_id : String) : ResultRecord :=
  { llm_chunk := chunk_id,
    llm_status := result.status,
    llm_event_count := result.event_count.getD 0,
    llm_response := result.response.getD (result.error.getD "No response"),
    llm_summary := result.summary }

/-- The record accumulation loop of `LLMHandlerCommand.stream`
(llmhandler.py lines 85-130), with the yielded records and the prompts
of the `_call_ollama` invocations collected in order.  Arguments after
the oracle: remaining input records, `event_buffer`, `chunk_number`,
`previous_summary` (empty string for Python `None` or `''`, both falsy),
and the number of calls made so far.  On input exhaustion a non-empty
buffer is flushed as a partial chunk, then a FINAL synthesis record is
emitted iff more than one chunk was produced. -/
def streamGo (cmd : Cmd) (config : Config) (oracle : Oracle) :
    List Record → List Record → Nat → String → Nat → List ResultRecord × List String
  | [], buffer, c, prev, k =>
    if buffer.isEmpty then
      if c > 1 then
        ([create_result_record
            (generate_final_synthesis c (oracle k (final_synthesis_prompt c cmd.prompt))) "FINAL"],
         [final_synthesis_prompt c cmd.prompt])
      else ([], [])
    else
      let prompt := build_prompt cmd config (format_events buffer) (c + 1) prev
      let result := process_chunk_result buffer (c + 1) (oracle k prompt)
      let outRec := create_result_record result (toString (c + 1))
      if c + 1 > 1 then
        ([outRec,
          create_result_record
            (generate_final_synthesis (c + 1)
              (oracle (k + 1) (final_synthesis_prompt (c + 1) cmd.prompt))) "FINAL"],
         [prompt, final_synthesis_prompt (c + 1) cmd.prompt])
      else ([outRec], [prompt])
  | r :: rs, buffer, c, prev, k =>
    if (buffer ++ [r]).length ≥ cmd.chunk_size then
      let prompt := build_prompt cmd config (format_events (buffer ++ [r])) (c + 1) prev
      let result := process_chunk_result (buffer ++ [r]) (c + 1) (oracle k prompt)
      let outRec := create_result_record result (toString (c + 1))
      let next := streamGo cmd config oracle rs [] (c + 1) (result.summary.getD "") (k + 1)
      (outRec :: next.1, prompt :: next.2)
    else
      streamGo cmd config oracle rs (buffer ++ [r]) c prev k

/-- `LLMHandlerCommand.stream` (llmhandler.py lines 67-130): the yielded
result records and the prompts sent to the endpoint, in order. -/
def llmhandlerStream (cmd : Cmd) (config : Config) (oracle : Oracle)
    (records : List Record) : List ResultRecord × List String :=
  streamGo cmd config oracle records [] 0 "" 0

/-! Specification-side decomposition of the stream loop.  `chunksAux`
mirrors the buffer logic of `stream` exactly (flush when the buffer,
after appending, reaches the configured size; a trailing non-empty
buffer becomes a final partial chunk); `runChunks` processes a chunk
list sequentially, chaining the carried summary; `runPhase` appends the
FINAL synthesis record iff more than one chunk was produced.  The
bridge theorem below proves `streamGo` equal to this decomposition. -/

/-- The chunk decomposition performed by the buffer logic of `stream`:
`chunksAux n buffer rs` is the list of chunks flushed when the records
`rs` arrive with `buffer` already accumulated. -/
def chunksAux (n : Nat) : List Record → List Record → List (List Record)
  | buffer, [] => if buffer.isEmpty then [] else [buffer]
  | buffer, r :: rs =>
    if (buffer ++ [r]).length ≥ n then (buffer ++ [r]) :: chunksAux n [] rs
    else chunksAux n (buffer ++ [r]) rs

/-- Sequential per-chunk processing: one `_call_ollama` invocation per
chunk, the carried summary of the next chunk read from the current
result dict (`result.get('summary', '')`). -/
def runChunks (cmd : Cmd) (config : Config) (oracle : Oracle) :
    List (List Record) → Nat → String → Nat → List ResultRecord × List String
  | [], _, _, _ => ([], [])
  | ch :: rest, c, prev, k =>
    let prompt := build_prompt cmd config (format_events ch) (c + 1) prev
    let result := process_chunk_result ch (c + 1) (oracle k prompt)
    let next := runChunks cmd config oracle rest (c + 1) (result.summary.getD "") (k + 1)
    (create_result_record result (toString (c + 1)) :: next.1, prompt :: next.2)

/-- Per-chunk processing followed by the FINAL synthesis record iff the
total chunk count exceeds one. -/
def runPhase (cmd : Cmd) (config : Config) (oracle : Oracle)
    (chunks : List (List Record)) (c : Nat) (prev : String) (k : Nat) :
    List ResultRecord × List String :=
  let pr := runChunks cmd config oracle chunks c prev k
  let total := c + chunks.length
  if total > 1 then
    (pr.1 ++
       [create_result_record
          (generate_final_synthesis total
            (oracle (k + chunks.length) (final_synthesis_prompt total cmd.prompt))) "FINAL"],
     pr.2 ++ [final_synthesis_prompt total cmd.prompt])
  else pr

/-- Expected number of per-chunk records for input length `L` and chunk
size `n`: zero for empty input, otherwise the ceiling of `L / n`. -/
def numChunks (n L : Nat) : Nat :=
  if L = 0 then 0 else (L + n - 1) / n

/-- Default element for `List.getD` over output records. -/
def dummyRecord : ResultRecord :=
  { llm_chunk := "", llm_status := "", llm_event_count := 0,
    llm_response := "", llm_summary := none }

/-! Embedding of `dfircopilot_config_handler.py`. -/

/-- A minimal JSON value model for the parsed bodies of
`GET {endpoint}/api/tags`. -/
inductive Json where
  | null
  | jbool (b : Bool)
  | jnum (n : Int)
  | jstr (s : String)
  | jarr (elems : List Json)
  | jobj (fields : List (String × Json))

/-- Python `dict.get` over a JSON object field list. -/
def jsonGet : List (String × Json) → String → Option Json
  | [], _ => none
  | (k, v) :: rest, key => if k = key then some v else jsonGet rest key

/-- An HTTP response as the handler observes it: the status code and
the outcome of `response.json()` (`.error` when the body is not valid
JSON and the call raises). -/
structure HttpResp where
  status : Nat
  body : Except Unit Json

/-- `DFIRVaultConfigHandler._test_ollama_connection` (lines 176-185):
true only when the GET succeeded with HTTP 200; any exception yields
false. -/
def test_ollama_connection (resp : Except Unit HttpResp) : Bool :=
  match resp with
  | .error _ => false
  | .ok r => r.status == 200

/-- The list comprehension of `_fetch_available_models` (line 198):
`[model.get('name', 'unknown') for model in data.get('models', [])]`.
The result is `none` exactly when the Python expression raises (the
body is not an object, the models field is not iterable as dicts, or an
element is not a dict). -/
def extract_model_names (data : Json) : Option (List Json) :=
  match data with
  | .jobj fields =>
    match (jsonGet fields "models").getD (.jarr []) with
    | .jarr models =>
      models.mapM fun m =>
        match m with
        | .jobj mf => some ((jsonGet mf "name").getD (.jstr "unknown"))
        | _ => none
    | _ => none
  | _ => none

/-- `DFIRVaultConfigHandler._fetch_available_models` (lines 187-202):
the parsed model names on HTTP 200 with a well-formed body, the empty
list on any failure (transport error, non-200 status, malformed body);
the surrounding try/except means the function never raises. -/
def fetch_available_models (resp : Except Unit HttpResp) : List Json :=
  match resp with
  | .error _ => []
  | .ok r =>
    if r.status = 200 then
      match r.body with
      | .error _ => []
      | .ok data => (extract_model_names data).getD []
    else []

/-- The request arguments of `handleEdit` (`self.callerArgs.data`),
modelled as the first value supplied for each argument name. -/
abbrev Args := List (String × String)

/-- Python `args.get(key, [default])[0]` (and the equivalent
`args.get(key, [default_value])[0] if key in args else default_value`
of `_write_config`). -/
def argsGet (args : Args) (key dflt : String) : String :=
  match lookupField args key with
  | some v => v
  | none => dflt

/-- The fixed key/default table of `_write_config` (lines 148-159), in
dict insertion order. -/
def config_keys : List (String × String) :=
  [("endpoint", "http://localhost:11434"),
   ("model", "mistral"),
   ("temperature", "0.7"),
   ("max_tokens", "2000"),
   ("timeout", "120"),
   ("chunk_size", "10"),
   ("max_context_events", "100"),
   ("overlap_events", "2"),
   ("analysis_mode", "forensic"),
   ("system_prompt", "You are a cybersecurity and DFIR expert assistant.")]

/-- The file content `_write_config` produces (lines 144-168): a single
section header followed by every key of the fixed table, each value the
supplied argument or its default. -/
def write_config_content (args : Args) : String :=
  "[llm_config]\n" ++
    String.join (config_keys.map fun kv => kv.1 ++ " = " ++ argsGet args kv.1 kv.2 ++ "\n")

/-- The persisted files the handler touches: `local/dfirvault.conf` and
`local/app.conf` (full contents; `none` = file absent). -/
structure FsState where
  dfirvault_conf : Option String
  app_conf : Option String
  deriving DecidableEq

/-- Errors surfaced to the REST caller.  `handleEdit` raises
`admin.BadRequestException` on a failed endpoint probe, but its own
catch-all `except` re-raises every exception wrapped as
`admin.InternalException(f"Error updating configuration: {str(e)}")`,
so that is what the caller observes. -/
inductive HandlerErr where
  | badRequest (msg : String)
  | internal (msg : String)
  deriving DecidableEq

/-- `DFIRVaultConfigHandler.handleEdit` (lines 59-81), given the probe
outcome for the supplied endpoint: when a non-empty endpoint fails the
probe, the raised validation error is wrapped by the catch-all and the
files are untouched; otherwise `_write_config` overwrites
`local/dfirvault.conf` and `_mark_configured` writes `local/app.conf`. -/
def handleEdit (tags : Except Unit HttpResp) (args : Args) (st : FsState) :
    Except HandlerErr Unit × FsState :=
  let endpoint := argsGet args "endpoint" ""
  if endpoint ≠ "" ∧ test_ollama_connection tags = false then
    (.error (.internal ("Error updating configuration: Cannot connect to Ollama at " ++ endpoint)),
     st)
  else
    (.ok (),
     { dfirvault_conf := some (write_config_content args),
       app_conf := some "[install]\nis_configured = true\n" })

/-- The chunk-size validator of the search command
(`validators.Integer(minimum=1, maximum=1000)`, llmhandler.py line 43). -/
def chunk_size_valid (i : Int) : Bool :=
  decide (1 ≤ i) && decide (i ≤ 1000)

/-! Helper lemmas about the stream decomposition. -/

theorem runChunks_fst_length (cmd : Cmd) (config : Config) (oracle : Oracle)
    (chunks : List (List Record)) :
    ∀ (c : Nat) (prev : String) (k : Nat),
      ((runChunks cmd config oracle chunks c prev k).1).length = chunks.length := by
  induction chunks with
  | nil => intro c prev k; rfl
  | cons ch rest ih => intro c prev k; simp [runChunks, ih]

theorem runChunks_snd_length (cmd : Cmd) (config : Config) (oracle : Oracle)
    (chunks : List (List Record)) :
    ∀ (c : Nat) (prev : String) (k : Nat),
      ((runChunks cmd config oracle chunks c prev k).2).length = chunks.length := by
  induction chunks with
  | nil => intro c prev k; rfl
  | cons ch rest ih => intro c prev k; simp [runChunks, ih]

/-- Bridge: the stream loop equals per-chunk processing of the chunk
decomposition followed by the conditional FINAL record. -/
theorem streamGo_eq_runPhase (cmd : Cmd) (config : Config) (oracle : Oracle) :
    ∀ (rs buffer : List Record) (c : Nat) (prev : String) (k : Nat),
      streamGo cmd config oracle rs buffer c prev k =
        runPhase cmd config oracle (chunksAux cmd.chunk_size buffer rs) c prev k := by
  intro rs
  induction rs with
  | nil =>
    intro buffer c prev k
    by_cases hb : buffer.isEmpty
    · simp [streamGo, chunksAux, runPhase, runChunks, hb]
    · simp [streamGo, chunksAux, runPhase, runChunks, hb]
  | cons r rs ih =>
    intro buffer c prev k
    by_cases ht : (buffer ++ [r]).length ≥ cmd.chunk_size
    · simp only [streamGo, chunksAux, ht, if_pos]
      rw [ih]
      simp only [runPhase, runChunks, List.length_cons]
      generalize (chunksAux cmd.chunk_size [] rs).length = L
      have e1 : c + (L + 1) = c + 1 + L := by omega
      have e2 : k + (L + 1) = k + 1 + L := by omega
      rw [e1, e2]
      by_cases hgt : c + 1 + L > 1
      · simp [hgt]
      · simp [hgt]
    · simp only [streamGo, chunksAux, ht, if_neg, ite_false]
      exact ih (buffer ++ [r]) c prev k

/-- Number of chunks the buffer logic produces: the ceiling of the total
record count divided by the chunk size (zero for no records). -/
theorem chunksAux_length (n : Nat) (hn : 1 ≤ n) :
    ∀ (rs buffer : List Record), buffer.length < n →
      (chunksAux n buffer rs).length =
        if buffer.length + rs.length = 0 then 0
        else (buffer.length + rs.length + n - 1) / n := by
  intro rs
  induction rs with
  | nil =>
    intro buffer hb
    by_cases h : buffer.isEmpty
    · have hz : buffer.length = 0 := by simpa [List.isEmpty_iff_length_eq_zero] using h
      simp [chunksAux, h, hz]
    · have hz : buffer.length ≠ 0 := by
        simpa [List.isEmpty_iff_length_eq_zero] using h
      have h1 : (buffer.length + n - 1) / n = 1 := by
        apply Nat.div_eq_of_lt_le <;> omega
      simp [chunksAux, h, hz, h1]
  | cons r rs ih =>
    intro buffer hb
    by_cases ht : (buffer ++ [r]).length ≥ n
    · have hfull : buffer.length + 1 = n := by
        simp only [List.length_append, List.length_cons, List.length_nil] at ht
        omega
      simp only [chunksAux, ht, if_pos, List.length_cons]
      rw [ih [] (by simpa using hn)]
      simp only [List.length_nil, Nat.zero_add]
      by_cases hz : rs.length = 0
      · have h1 : (buffer.length + (rs.length + 1) + n - 1) / n = 1 := by
          apply Nat.div_eq_of_lt_le <;> omega
        rw [if_pos hz, if_neg (by omega), h1]
      · have e : buffer.length + (rs.length + 1) + n - 1 = (rs.length + n - 1) + n := by omega
        rw [if_neg hz, if_neg (by omega), e, Nat.add_div_right _ (by omega)]
    · have hlt : buffer.length + 1 < n := by
        simp only [List.length_append, List.length_cons, List.length_nil] at ht
        omega
      simp only [chunksAux, ht, if_neg, ite_false, List.length_cons]
      rw [ih (buffer ++ [r]) (by simpa using hlt)]
      have e1 : (buffer ++ [r]).length = buffer.length + 1 := by simp
      rw [e1]
      have e2 : buffer.length + 1 + rs.length = buffer.length + (rs.length + 1) := by omega
      rw [e2]

/-- Specialization to the initial state of `stream`: the number of
chunks is `numChunks`. -/
theorem chunksAux_nil_length (n : Nat) (hn : 1 ≤ n) (records : List Record) :
    (chunksAux n [] records).length = numChunks n records.length := by
  rw [chunksAux_length n hn records [] (by simpa using hn)]
  simp [numChunks]

/-- Per-chunk characterization: the record emitted for the chunk at
position `j` is shaped from the single oracle call with index `k + j`
on the prompt at position `j`. -/
theorem runChunks_getD (cmd : Cmd) (config : Config) (oracle : Oracle) :
    ∀ (chunks : List (List Record)) (c : Nat) (prev : String) (k j : Nat),
      j < chunks.length →
      ((runChunks cmd config oracle chunks c prev k).1).getD j dummyRecord =
        create_result_record
          (process_chunk_result (chunks.getD j []) (c + j + 1)
            (oracle (k + j) (((runChunks cmd config oracle chunks c prev k).2).getD j "")))
          (toString (c + j + 1)) := by
  intro chunks
  induction chunks with
  | nil => intro c prev k j hj; simp at hj
  | cons ch rest ih =>
    intro c prev k j hj
    cases j with
    | zero => simp [runChunks]
    | succ j =>
      have hj' : j < rest.length := by simpa using hj
      simp only [runChunks, List.getD_cons_succ]
      rw [ih (c + 1) _ (k + 1) j hj']
      have e1 : c + 1 + j + 1 = c + (j + 1) + 1 := by omega
      have e2 : k + 1 + j = k + (j + 1) := by omega
      rw [e1, e2]

/-- The first prompt of a chunk run is built with the incoming carried
summary. -/
theorem runChunks_prompt_zero (cmd : Cmd) (config : Config) (oracle : Oracle)
    (chunks : List (List Record)) (c : Nat) (prev : String) (k : Nat)
    (h : 0 < chunks.length) :
    ((runChunks cmd config oracle chunks c prev k).2).getD 0 "" =
      build_prompt cmd config (format_events (chunks.getD 0 [])) (c + 1) prev := by
  cases chunks with
  | nil => simp at h
  | cons ch rest => simp [runChunks]

/-- Prompt chaining: the prompt of chunk `j + 1` is built with the
summary stored from the result of chunk `j`, which is the extracted
summary of its response on success and the empty string on failure. -/
theorem runChunks_prompt_succ (cmd : Cmd) (config : Config) (oracle : Oracle) :
    ∀ (chunks : List (List Record)) (c : Nat) (prev : String) (k j : Nat),
      j + 1 < chunks.length →
      ((runChunks cmd config oracle chunks c prev k).2).getD (j + 1) "" =
        build_prompt cmd config (format_events (chunks.getD (j + 1) [])) (c + j + 2)
          ((process_chunk_result (chunks.getD j []) (c + j + 1)
              (oracle (k + j) (((runChunks cmd config oracle chunks c prev k).2).getD j ""))).summary.getD "") := by
  intro chunks
  induction chunks with
  | nil => intro c prev k j hj; simp at hj
  | cons ch rest ih =>
    intro c prev k j hj
    cases j with
    | zero =>
      have h0 : 0 < rest.length := by simpa using hj
      simp only [runChunks, List.getD_cons_succ, List.getD_cons_zero]
      rw [runChunks_prompt_zero cmd config oracle rest (c + 1) _ (k + 1) h0]
      have e1 : c + 1 + 1 = c + 0 + 2 := by omega
      have e2 : k = k + 0 := by omega
      rw [e1]
      simp [runChunks]
    | succ j =>
      have hj' : j + 1 < rest.length := by simpa using hj
      simp only [runChunks, List.getD_cons_succ]
      rw [ih (c + 1) _ (k + 1) j hj']
      have e1 : c + 1 + j + 2 = c + (j + 1) + 2 := by omega
      have e2 : c + 1 + j + 1 = c + (j + 1) + 1 := by omega
      have e3 : k + 1 + j = k + (j + 1) := by omega
      rw [e1, e2, e3]

/-- When more than one chunk is produced, the last prompt sent is the
final synthesis prompt, built from the chunk count and the user prompt
alone. -/
theorem stream_final_prompt (cmd : Cmd) (config : Config) (oracle : Oracle)
    (records : List Record) (h1 : 1 ≤ cmd.chunk_size)
    (hN : 1 < numChunks cmd.chunk_size records.length) :
    ((llmhandlerStream cmd config oracle records).2).getD
        (numChunks cmd.chunk_size records.length) ""
      = final_synthesis_prompt (numChunks cmd.chunk_size records.length) cmd.prompt := by
  have hb : llmhandlerStream cmd config oracle records
      = runPhase cmd config oracle (chunksAux cmd.chunk_size [] records) 0 "" 0 :=
    streamGo_eq_runPhase cmd config oracle records [] 0 "" 0
  have hlen := chunksAux_nil_length cmd.chunk_size h1 records
  have hr2 := runChunks_snd_length cmd config oracle (chunksAux cmd.chunk_size [] records) 0 "" 0
  rw [hb]
  have htot : 0 + (chunksAux cmd.chunk_size [] records).length > 1 := by omega
  simp only [runPhase, if_pos htot]
  rw [List.getD_append_right _ _ _ _ (by omega)]
  rw [hr2, hlen]
  simp

/-- The per-chunk prompts of the stream are those of the chunk run (the
FINAL prompt, when present, sits after them). -/
theorem stream_prompt_eq_runChunks (cmd : Cmd) (config : Config) (oracle : Oracle)
    (records : List Record) (h1 : 1 ≤ cmd.chunk_size) (i : Nat)
    (hi : i < numChunks cmd.chunk_size records.length) :
    ((llmhandlerStream cmd config oracle records).2).getD i ""
      = ((runChunks cmd config oracle (chunksAux cmd.chunk_size [] records) 0 "" 0).2).getD i "" := by
  have hb : llmhandlerStream cmd config oracle records
      = runPhase cmd config oracle (chunksAux cmd.chunk_size [] records) 0 "" 0 :=
    streamGo_eq_runPhase cmd config oracle records [] 0 "" 0
  have hlen := chunksAux_nil_length cmd.chunk_size h1 records
  have hr2 := runChunks_snd_length cmd config oracle (chunksAux cmd.chunk_size [] records) 0 "" 0
  rw [hb]
  simp only [runPhase]
  by_cases htot : 0 + (chunksAux cmd.chunk_size [] records).length > 1
  · simp only [if_pos htot]
    exact List.getD_append _ _ _ _ (by omega)
  · simp only [if_neg htot]

/-! Claim theorems. -/

/-- C1: for every configured chunk size `n` (1 ≤ n ≤ 1000) and input of
length `L`, the stream emits exactly `ceil(L / n)` per-chunk records
(zero when `L = 0`), each tagged with its 1-based chunk number, followed
by one additional record tagged FINAL iff more than one chunk was
flushed. -/
theorem c1_stream_record_counts (cmd : Cmd) (config : Config) (oracle : Oracle)
    (records : List Record) (h1 : 1 ≤ cmd.chunk_size) (_h2 : cmd.chunk_size ≤ 1000) :
    ((llmhandlerStream cmd config oracle records).1).length
        = numChunks cmd.chunk_size records.length
          + (if 1 < numChunks cmd.chunk_size records.length then 1 else 0)
    ∧ (∀ j, j < numChunks cmd.chunk_size records.length →
        (((llmhandlerStream cmd config oracle records).1).getD j dummyRecord).llm_chunk
          = toString (j + 1))
    ∧ (1 < numChunks cmd.chunk_size records.length →
        (((llmhandlerStream cmd config oracle records).1).getD
            (numChunks cmd.chunk_size records.length) dummyRecord).llm_chunk = "FINAL")
    ∧ (numChunks cmd.chunk_size records.length ≤ 1 →
        ∀ j, j < ((llmhandlerStream cmd config oracle records).1).length →
          (((llmhandlerStream cmd config oracle records).1).getD j dummyRecord).llm_chunk
            ≠ "FINAL") := by
  have hb : llmhandlerStream cmd config oracle records
      = runPhase cmd config oracle (chunksAux cmd.chunk_size [] records) 0 "" 0 :=
    streamGo_eq_runPhase cmd config oracle records [] 0 "" 0
  have hlen := chunksAux_nil_length cmd.chunk_size h1 records
  rw [hb]
  have hr1 := runChunks_fst_length cmd config oracle (chunksAux cmd.chunk_size [] records) 0 "" 0
  by_cases hgt : 1 < numChunks cmd.chunk_size records.length
  · have htot : 0 + (chunksAux cmd.chunk_size [] records).length > 1 := by omega
    simp only [runPhase, if_pos htot]
    refine ⟨?_, ?_, ?_, ?_⟩
    · simp only [List.length_append, List.length_cons, List.length_nil, hr1, hlen, if_pos hgt]
    · intro j hj
      rw [List.getD_append _ _ _ _ (by omega)]
      rw [runChunks_getD cmd config oracle _ 0 "" 0 j (by omega)]
      simp [create_result_record]
    · intro _
      rw [List.getD_append_right _ _ _ _ (by omega)]
      rw [hr1, hlen]
      simp [create_result_record]
    · intro hle
      omega
  · have htot : ¬ (0 + (chunksAux cmd.chunk_size [] records).length > 1) := by omega
    simp only [runPhase, if_neg htot]
    refine ⟨?_, ?_, ?_, ?_⟩
    · simp only [hr1, hlen, if_neg hgt, Nat.add_zero]
    · intro j hj
      rw [runChunks_getD cmd config oracle _ 0 "" 0 j (by omega)]
      simp [create_result_record]
    · intro h
      exact absurd h hgt
    · intro hle j hj
      rw [hr1, hlen] at hj
      have hj0 : j = 0 := by omega
      have hN1 : numChunks cmd.chunk_size records.length = 1 := by omega
      subst hj0
      rw [runChunks_getD cmd config oracle _ 0 "" 0 0 (by omega)]
      simp only [create_result_record]
      decide

/-- C1 witness: a concrete run with chunk size 2 over 5 records emits 3
per-chunk records and one FINAL record. -/
theorem c1_stream_record_counts_witness :
    ((llmhandlerStream { prompt := "p", analysis_mode := "forensic", chunk_size := 2 }
        { system_prompt := "sp", analysis_mode := "forensic" }
        (fun _ _ => Except.ok "analysis")
        [[("a", "1")], [("a", "2")], [("a", "3")], [("a", "4")], [("a", "5")]]).1).length
      = numChunks 2 5 + (if 1 < numChunks 2 5 then 1 else 0) := by
  have h := c1_stream_record_counts
    { prompt := "p", analysis_mode := "forensic", chunk_size := 2 }
    { system_prompt := "sp", analysis_mode := "forensic" }
    (fun _ _ => Except.ok "analysis")
    [[("a", "1")], [("a", "2")], [("a", "3")], [("a", "4")], [("a", "5")]]
    (by decide) (by decide)
  simpa using h.1

/-- C10: the FINAL synthesis prompt is a function only of the total
chunk count and the user prompt — it contains no input event data and no
per-chunk response or summary, because any two runs agreeing on those
two values send the identical final prompt — and on success the FINAL
record counts chunks, not events. -/
theorem c10_final_synthesis_shape (cmd : Cmd) (config : Config) (oracle : Oracle)
    (records : List Record) (h1 : 1 ≤ cmd.chunk_size)
    (hN : 1 < numChunks cmd.chunk_size records.length) :
    ((llmhandlerStream cmd config oracle records).2).getD
        (numChunks cmd.chunk_size records.length) ""
      = final_synthesis_prompt (numChunks cmd.chunk_size records.length) cmd.prompt
    ∧ ((llmhandlerStream cmd config oracle records).2).length
        = numChunks cmd.chunk_size records.length + 1
    ∧ (∀ (cmd2 : Cmd) (config2 : Config) (oracle2 : Oracle) (records2 : List Record),
        cmd2.prompt = cmd.prompt → 1 ≤ cmd2.chunk_size →
        numChunks cmd2.chunk_size records2.length = numChunks cmd.chunk_size records.length →
        ((llmhandlerStream cmd2 config2 oracle2 records2).2).getD
            (numChunks cmd2.chunk_size records2.length) ""
          = ((llmhandlerStream cmd config oracle records).2).getD
              (numChunks cmd.chunk_size records.length) "")
    ∧ ((((llmhandlerStream cmd config oracle records).1).getD
          (numChunks cmd.chunk_size records.length) dummyRecord).llm_status = "success" →
        (((llmhandlerStream cmd config oracle records).1).getD
          (numChunks cmd.chunk_size records.length) dummyRecord).llm_event_count
          = numChunks cmd.chunk_size records.length) := by
  have hb : llmhandlerStream cmd config oracle records
      = runPhase cmd config oracle (chunksAux cmd.chunk_size [] records) 0 "" 0 :=
    streamGo_eq_runPhase cmd config oracle records [] 0 "" 0
  have hlen := chunksAux_nil_length cmd.chunk_size h1 records
  have hr1 := runChunks_fst_length cmd config oracle (chunksAux cmd.chunk_size [] records) 0 "" 0
  have hr2 := runChunks_snd_length cmd config oracle (chunksAux cmd.chunk_size [] records) 0 "" 0
  refine ⟨stream_final_prompt cmd config oracle records h1 hN, ?_, ?_, ?_⟩
  · rw [hb]
    have htot : 0 + (chunksAux cmd.chunk_size [] records).length > 1 := by omega
    simp only [runPhase, if_pos htot]
    simp [hr2, hlen]
  · intro cmd2 config2 oracle2 records2 hp h12 hN2
    rw [stream_final_prompt cmd2 config2 oracle2 records2 h12 (by omega)]
    rw [stream_final_prompt cmd config oracle records h1 hN, hN2, hp]
  · rw [hb]
    have htot : 0 + (chunksAux cmd.chunk_size [] records).length > 1 := by omega
    simp only [runPhase, if_pos htot]
    rw [List.getD_append_right _ _ _ _ (by omega)]
    rw [hr1, hlen]
    simp only [Nat.sub_self, Nat.zero_add, List.getD_cons_zero]
    rcases hcall : oracle (numChunks cmd.chunk_size records.length)
        (final_synthesis_prompt (numChunks cmd.chunk_size records.length) cmd.prompt) with r | e
    · simp [create_result_record, generate_final_synthesis, hcall]
    · simp [create_result_record, generate_final_synthesis, hcall]

/-- C10 witness: a run with chunk size 2 over 5 records (3 chunks) sends
the final synthesis prompt built from chunk count 3 and the user prompt. -/
theorem c10_final_synthesis_shape_witness :
    ((llmhandlerStream { prompt := "p", analysis_mode := "forensic", chunk_size := 2 }
        { system_prompt := "sp", analysis_mode := "forensic" }
        (fun _ _ => Except.ok "analysis")
        [[("a", "1")], [("a", "2")], [("a", "3")], [("a", "4")], [("a", "5")]]).2).getD
        (numChunks 2 5) ""
      = final_synthesis_prompt (numChunks 2 5) "p" := by
  have h := c10_final_synthesis_shape
    { prompt := "p", analysis_mode := "forensic", chunk_size := 2 }
    { system_prompt := "sp", analysis_mode := "forensic" }
    (fun _ _ => Except.ok "analysis")
    [[("a", "1")], [("a", "2")], [("a", "3")], [("a", "4")], [("a", "5")]]
    (by decide) (by decide)
  exact h.1

/-- C6: when the LLM call of the chunk at position `j` fails with
message `e`, its emitted record has error status and carries `e` as the
response text (and no summary) with the chunk event count intact; the
total number of emitted records is unchanged (all later chunks are still
processed), and exactly one LLM call is made per emitted record, so the
failed call is never retried. -/
theorem c6_chunk_failure_isolated (cmd : Cmd) (config : Config) (oracle : Oracle)
    (records : List Record) (j : Nat) (e : String)
    (h1 : 1 ≤ cmd.chunk_size)
    (hj : j < numChunks cmd.chunk_size records.length)
    (herr : oracle j (((llmhandlerStream cmd config oracle records).2).getD j "")
      = Except.error e) :
    (((llmhandlerStream cmd config oracle records).1).getD j dummyRecord).llm_status = "error"
    ∧ (((llmhandlerStream cmd config oracle records).1).getD j dummyRecord).llm_response = e
    ∧ (((llmhandlerStream cmd config oracle records).1).getD j dummyRecord).llm_summary = none
    ∧ (((llmhandlerStream cmd config oracle records).1).getD j dummyRecord).llm_event_count
        = ((chunksAux cmd.chunk_size [] records).getD j []).length
    ∧ ((llmhandlerStream cmd config oracle records).1).length
        = numChunks cmd.chunk_size records.length
          + (if 1 < numChunks cmd.chunk_size records.length then 1 else 0)
    ∧ ((llmhandlerStream cmd config oracle records).2).length
        = ((llmhandlerStream cmd config oracle records).1).length := by
  have hb : llmhandlerStream cmd config oracle records
      = runPhase cmd config oracle (chunksAux cmd.chunk_size [] records) 0 "" 0 :=
    streamGo_eq_runPhase cmd config oracle records [] 0 "" 0
  have hlen := chunksAux_nil_length cmd.chunk_size h1 records
  have hr1 := runChunks_fst_length cmd config oracle (chunksAux cmd.chunk_size [] records) 0 "" 0
  have hr2 := runChunks_snd_length cmd config oracle (chunksAux cmd.chunk_size [] records) 0 "" 0
  have hprompt : ((llmhandlerStream cmd config oracle records).2).getD j ""
      = ((runChunks cmd config oracle (chunksAux cmd.chunk_size [] records) 0 "" 0).2).getD j "" := by
    rw [hb]
    simp only [runPhase]
    by_cases htot : 0 + (chunksAux cmd.chunk_size [] records).length > 1
    · simp only [if_pos htot]
      exact List.getD_append _ _ _ _ (by omega)
    · simp only [if_neg htot]
  have hout : ((llmhandlerStream cmd config oracle records).1).getD j dummyRecord
      = ((runChunks cmd config oracle (chunksAux cmd.chunk_size [] records) 0 "" 0).1).getD j dummyRecord := by
    rw [hb]
    simp only [runPhase]
    by_cases htot : 0 + (chunksAux cmd.chunk_size [] records).length > 1
    · simp only [if_pos htot]
      exact List.getD_append _ _ _ _ (by omega)
    · simp only [if_neg htot]
  rw [hprompt] at herr
  rw [hout]
  rw [runChunks_getD cmd config oracle _ 0 "" 0 j (by omega)]
  simp only [Nat.zero_add] at herr ⊢
  rw [herr]
  refine ⟨by simp [create_result_record, process_chunk_result],
          by simp [create_result_record, process_chunk_result],
          by simp [create_result_record, process_chunk_result],
          by simp [create_result_record, process_chunk_result], ?_, ?_⟩
  · rw [hb]
    simp only [runPhase]
    by_cases htot : 0 + (chunksAux cmd.chunk_size [] records).length > 1
    · simp only [if_pos htot]
      simp [hr1, hlen, if_pos (by omega : 1 < numChunks cmd.chunk_size records.length)]
    · simp only [if_neg htot]
      rw [hr1, hlen, if_neg (by omega), Nat.add_zero]
  · rw [hb]
    simp only [runPhase]
    by_cases htot : 0 + (chunksAux cmd.chunk_size [] records).length > 1
    · simp only [if_pos htot]
      simp [hr1, hr2]
    · simp only [if_neg htot]
      rw [hr1, hr2]

/-- C6 witness: with chunk size 1 and a single record, an oracle that
fails the first call yields an error record carrying the failure text. -/
theorem c6_chunk_failure_isolated_witness :
    (((llmhandlerStream { prompt := "p", analysis_mode := "forensic", chunk_size := 1 }
        { system_prompt := "sp", analysis_mode := "forensic" }
        (fun _ _ => Except.error "Request to LLM timed out after 120 seconds")
        [[("a", "1")]]).1).getD 0 dummyRecord).llm_status = "error" := by
  have h := c6_chunk_failure_isolated
    { prompt := "p", analysis_mode := "forensic", chunk_size := 1 }
    { system_prompt := "sp", analysis_mode := "forensic" }
    (fun _ _ => Except.error "Request to LLM timed out after 120 seconds")
    [[("a", "1")]] 0 "Request to LLM timed out after 120 seconds"
    (by decide) (by decide) rfl
  exact h.1

/-- C2 counterexample: the first chunk succeeds with response "hello",
which contains no summary marker, yet the prompt of chunk 2 does carry a
Previous Analysis Context section — with the fallback summary "hello" —
refuting the claim that no previous-context section is included when the
previous response had no detectable marker. -/
theorem c2_counterexample :
    summaryMarker "hello" = false
    ∧ strContains
        (((llmhandlerStream { prompt := "p", analysis_mode := "forensic", chunk_size := 1 }
            { system_prompt := "sp", analysis_mode := "forensic" }
            (fun k _ => if k = 0 then Except.ok "hello" else Except.ok "x")
            [[("a", "1")], [("b", "2")]]).2).getD 1 "")
        "Previous Analysis Context" = true
    ∧ strContains
        (((llmhandlerStream { prompt := "p", analysis_mode := "forensic", chunk_size := 1 }
            { system_prompt := "sp", analysis_mode := "forensic" }
            (fun k _ => if k = 0 then Except.ok "hello" else Except.ok "x")
            [[("a", "1")], [("b", "2")]]).2).getD 1 "")
        "hello" = true := by decide

/-- C2 amended: the prompt of chunk `j + 2` carries the previous-context
section iff chunk `j + 1` succeeded and its extracted summary is
non-empty — where extraction falls back to the first 200 characters when
no marker is present, so a successful marker-less response still
produces carryover; only a failed call or an empty extracted summary
yields the context-free prompt. -/
theorem c2_carryover_amended (cmd : Cmd) (config : Config) (oracle : Oracle)
    (records : List Record) (h1 : 1 ≤ cmd.chunk_size) (j : Nat)
    (hj : j + 1 < numChunks cmd.chunk_size records.length) :
    ((llmhandlerStream cmd config oracle records).2).getD (j + 1) ""
      = (match oracle j (((llmhandlerStream cmd config oracle records).2).getD j "") with
         | Except.ok r =>
           if extract_summary r ≠ "" then
             prompt_with_context cmd config
               (format_events ((chunksAux cmd.chunk_size [] records).getD (j + 1) []))
               (j + 2) (extract_summary r)
           else
             prompt_without_context cmd config
               (format_events ((chunksAux cmd.chunk_size [] records).getD (j + 1) []))
               (j + 2)
         | Except.error _ =>
           prompt_without_context cmd config
             (format_events ((chunksAux cmd.chunk_size [] records).getD (j + 1) []))
             (j + 2)) := by
  have hlen := chunksAux_nil_length cmd.chunk_size h1 records
  rw [stream_prompt_eq_runChunks cmd config oracle records h1 (j + 1) hj]
  rw [stream_prompt_eq_runChunks cmd config oracle records h1 j (by omega)]
  rw [runChunks_prompt_succ cmd config oracle _ 0 "" 0 j (by omega)]
  simp only [Nat.zero_add]
  rcases hcall : oracle j
      (((runChunks cmd config oracle (chunksAux cmd.chunk_size [] records) 0 "" 0).2).getD j "")
      with e | r
  · simp only [process_chunk_result, Option.getD_none]
    rw [build_prompt, if_neg (by simp)]
  · simp only [process_chunk_result, Option.getD_some]
    by_cases hs : extract_summary r ≠ ""
    · rw [if_pos hs]
      rw [build_prompt, if_pos ⟨hs, by omega⟩]
    · rw [if_neg hs]
      push_neg at hs
      rw [hs, build_prompt, if_neg (by simp)]

/-- C2 amended witness: chunk 1 succeeds with the marker-less response
"hello", so the prompt of chunk 2 is the with-context prompt carrying
the fallback summary "hello". -/
theorem c2_carryover_amended_witness :
    ((llmhandlerStream { prompt := "p", analysis_mode := "forensic", chunk_size := 1 }
        { system_prompt := "sp", analysis_mode := "forensic" }
        (fun _ _ => Except.ok "hello")
        [[("a", "1")], [("b", "2")]]).2).getD 1 ""
      = (match (fun (_ : Nat) (_ : String) => Except.ok (ε := String) "hello") 0
            (((llmhandlerStream { prompt := "p", analysis_mode := "forensic", chunk_size := 1 }
                { system_prompt := "sp", analysis_mode := "forensic" }
                (fun _ _ => Except.ok "hello")
                [[("a", "1")], [("b", "2")]]).2).getD 0 "") with
         | Except.ok r =>
           if extract_summary r ≠ "" then
             prompt_with_context { prompt := "p", analysis_mode := "forensic", chunk_size := 1 }
               { system_prompt := "sp", analysis_mode := "forensic" }
               (format_events ((chunksAux 1 [] [[("a", "1")], [("b", "2")]]).getD 1 []))
               2 (extract_summary r)
           else
             prompt_without_context { prompt := "p", analysis_mode := "forensic", chunk_size := 1 }
               { system_prompt := "sp", analysis_mode := "forensic" }
               (format_events ((chunksAux 1 [] [[("a", "1")], [("b", "2")]]).getD 1 []))
               2
         | Except.error _ =>
           prompt_without_context { prompt := "p", analysis_mode := "forensic", chunk_size := 1 }
             { system_prompt := "sp", analysis_mode := "forensic" }
             (format_events ((chunksAux 1 [] [[("a", "1")], [("b", "2")]]).getD 1 []))
             2) := by
  have h := c2_carryover_amended { prompt := "p", analysis_mode := "forensic", chunk_size := 1 }
    { system_prompt := "sp", analysis_mode := "forensic" }
    (fun _ _ => Except.ok "hello")
    [[("a", "1")], [("b", "2")]] (by decide) 0 (by decide)
  exact h

/-! Helper lemmas about the summary-extraction heuristic. -/

theorem isPrefixOf_append (nd : List Char) :
    ∀ (l b : List Char), nd.isPrefixOf l = true → nd.isPrefixOf (l ++ b) = true := by
  induction nd with
  | nil =>
    intro l b _
    cases l ++ b <;> simp [List.isPrefixOf]
  | cons x xs ih =>
    intro l b h
    cases l with
    | nil => simp [List.isPrefixOf] at h
    | cons y ys =>
      simp only [List.cons_append, List.isPrefixOf, Bool.and_eq_true] at h ⊢
      exact ⟨h.1, ih ys b h.2⟩

theorem listContains_append_left (nd a b : List Char) (h : listContains nd a = true) :
    listContains nd (a ++ b) = true := by
  induction a with
  | nil =>
    have hnd : nd = [] := by simpa [listContains, List.isEmpty_iff] using h
    subst hnd
    cases b with
    | nil => rfl
    | cons c cs => simp [listContains]
  | cons c cs ih =>
    simp only [listContains, Bool.or_eq_true] at h ⊢
    rcases h with h | h
    · exact Or.inl (isPrefixOf_append _ _ _ h)
    · exact Or.inr (ih h)

theorem splitNewline_no_nl (a : List Char) (ha : '\n' ∉ a) : splitNewline a = [a] := by
  induction a with
  | nil => rfl
  | cons c cs ih =>
    have hc : ¬ c = '\n' := fun h => ha (h ▸ List.mem_cons_self c cs)
    have hcs : '\n' ∉ cs := fun h => ha (List.mem_cons_of_mem _ h)
    simp [splitNewline, hc, ih hcs]

theorem splitNewline_append (a b : List Char) (ha : '\n' ∉ a) :
    splitNewline (a ++ '\n' :: b) = a :: splitNewline b := by
  induction a with
  | nil => simp [splitNewline]
  | cons c cs ih =>
    have hc : ¬ c = '\n' := fun h => ha (h ▸ List.mem_cons_self c cs)
    have hcs : '\n' ∉ cs := fun h => ha (List.mem_cons_of_mem _ h)
    simp only [List.cons_append, splitNewline, if_neg hc, List.append_eq]
    rw [ih hcs]

theorem asString_data (s : String) : List.asString s.data = s := rfl

/-- A four-line response splits into its four lines when none of the
parts contains a newline. -/
theorem splitLines_four (m l1 l2 l3 : String)
    (hm : '\n' ∉ m.data) (h1 : '\n' ∉ l1.data) (h2 : '\n' ∉ l2.data) (h3 : '\n' ∉ l3.data) :
    splitLines (m ++ "\n" ++ l1 ++ "\n" ++ l2 ++ "\n" ++ l3) = [m, l1, l2, l3] := by
  unfold splitLines
  have hdata : (m ++ "\n" ++ l1 ++ "\n" ++ l2 ++ "\n" ++ l3).data
      = m.data ++ '\n' :: (l1.data ++ '\n' :: (l2.data ++ '\n' :: l3.data)) := by
    simp [String.data_append]
  rw [hdata, splitNewline_append _ _ hm, splitNewline_append _ _ h1,
      splitNewline_append _ _ h2, splitNewline_no_nl _ h3]
  simp [asString_data]

/-- The collection loop never gathers more than six lines when entered
with at most five. -/
theorem collectSummary_length_le :
    ∀ (lines : List String) (inS : Bool) (acc : List String), acc.length ≤ 5 →
      (collectSummary lines inS acc).length ≤ 6 := by
  intro lines
  induction lines with
  | nil => intro inS acc h; simp only [collectSummary]; omega
  | cons line rest ih =>
    intro inS acc h
    by_cases hm : summaryMarker line
    · simp only [collectSummary, hm, if_pos]
      exact ih true acc h
    · simp only [collectSummary, hm, Bool.false_eq_true, if_neg, ite_false]
      cases inS with
      | false => simpa using ih false acc h
      | true =>
        simp only [if_pos]
        by_cases hg : (pyStrip line != "" && !(pyStartsWith line "#")) = true
        · simp only [hg, if_pos]
          by_cases h5 : (acc ++ [pyStrip line]).length > 5
          · simp only [h5, if_pos]
            simp only [List.length_append, List.length_cons, List.length_nil]
            omega
          · simp only [h5, ite_false]
            exact ih true _ (by simp at h5 ⊢; omega)
        · simp only [hg, Bool.false_eq_true, ite_false]
          by_cases h5 : acc.length > 5
          · omega
          · simp only [h5, ite_false]
            exact ih true acc (by omega)

/-- Every line the loop collects is the stripped form of a source line
that is non-empty after stripping, does not start with a hash sign, and
does not itself contain the marker. -/
theorem collectSummary_mem :
    ∀ (lines : List String) (inS : Bool) (acc : List String) (t : String),
      t ∈ collectSummary lines inS acc →
      t ∈ acc ∨ ∃ line ∈ lines, t = pyStrip line ∧ pyStrip line ≠ "" ∧
        pyStartsWith line "#" = false ∧ summaryMarker line = false := by
  intro lines
  induction lines with
  | nil => intro inS acc t ht; exact Or.inl (by simpa [collectSummary] using ht)
  | cons line rest ih =>
    intro inS acc t ht
    by_cases hm : summaryMarker line
    · simp only [collectSummary, hm, if_pos] at ht
      rcases ih true acc t ht with h | ⟨l, hl, hrest⟩
      · exact Or.inl h
      · exact Or.inr ⟨l, List.mem_cons_of_mem _ hl, hrest⟩
    · simp only [collectSummary, hm, Bool.false_eq_true, if_neg, ite_false] at ht
      cases inS with
      | false =>
        rcases ih false acc t ht with h | ⟨l, hl, hrest⟩
        · exact Or.inl h
        · exact Or.inr ⟨l, List.mem_cons_of_mem _ hl, hrest⟩
      | true =>
        simp only [if_pos] at ht
        by_cases hg : (pyStrip line != "" && !(pyStartsWith line "#")) = true
        · have hg' : pyStrip line ≠ "" ∧ pyStartsWith line "#" = false := by
            simpa [bne_iff_ne] using hg
          simp only [hg, if_pos] at ht
          have hmem : t ∈ acc ++ [pyStrip line] → t ∈ acc ∨ t = pyStrip line := by
            intro hx
            rcases List.mem_append.mp hx with hx | hx
            · exact Or.inl hx
            · exact Or.inr (by simpa using hx)
          by_cases h5 : (acc ++ [pyStrip line]).length > 5
          · simp only [h5, if_pos] at ht
            rcases hmem ht with h | h
            · exact Or.inl h
            · exact Or.inr ⟨line, List.mem_cons_self _ _, h, hg'.1, hg'.2, by simpa using hm⟩
          · simp only [h5, ite_false] at ht
            rcases ih true _ t ht with h | ⟨l, hl, hrest⟩
            · rcases hmem h with h | h
              · exact Or.inl h
              · exact Or.inr ⟨line, List.mem_cons_self _ _, h, hg'.1, hg'.2, by simpa using hm⟩
            · exact Or.inr ⟨l, List.mem_cons_of_mem _ hl, hrest⟩
        · simp only [hg, Bool.false_eq_true, ite_false] at ht
          by_cases h5 : acc.length > 5
          · simp only [h5, if_pos] at ht
            exact Or.inl ht
          · simp only [h5, ite_false] at ht
            rcases ih true acc t ht with h | ⟨l, hl, hrest⟩
            · exact Or.inl h
            · exact Or.inr ⟨l, List.mem_cons_of_mem _ hl, hrest⟩

/-- C3 counterexample: the lowercase line "my summary" contains neither
"Summary" nor "SUMMARY", so the marker branch is not taken — the whole
response comes back via the fallback instead of the digest "line1" the
claimed case-insensitive matching would produce; and after a marker the
loop collects six lines, one more than the claimed five. -/
theorem c3_counterexample :
    extract_summary "my summary\nline1" = "my summary\nline1"
    ∧ extract_summary "my summary\nline1" ≠ "line1"
    ∧ extract_summary "Summary\na\nb\nc\nd\ne\nf\ng" = "a b c d e f" := by decide

/-- C3 amended: the marker test is case-sensitive — only the exact
substrings "Summary" or "SUMMARY" trigger the marker branch, and absent
both the fallback of the first 200 stripped characters is returned;
once a marker is found the loop collects at most six (not five)
subsequent lines, each the stripped form of a non-empty line that does
not start with a hash sign and does not itself contain the marker. -/
theorem c3_extract_summary_amended (s : String) :
    (strContains s "Summary" = false → strContains s "SUMMARY" = false →
      extract_summary s = first200trim s)
    ∧ (summaryMarker s = true →
        extract_summary s = joinSep " " (collectSummary (splitLines s) false [])
        ∧ (collectSummary (splitLines s) false []).length ≤ 6
        ∧ ∀ t ∈ collectSummary (splitLines s) false [],
            ∃ line ∈ splitLines s, t = pyStrip line ∧ pyStrip line ≠ "" ∧
              pyStartsWith line "#" = false ∧ summaryMarker line = false) := by
  constructor
  · intro hs1 hs2
    have hm : summaryMarker s = false := by simp [summaryMarker, hs1, hs2]
    simp [extract_summary, hm]
  · intro h
    refine ⟨by simp [extract_summary, h], collectSummary_length_le _ false [] (by simp), ?_⟩
    intro t ht
    rcases collectSummary_mem _ false [] t ht with h0 | hex
    · simp at h0
    · exact hex

/-- C3 amended witness: the marker response "Summary" followed by one
line collects a digest of at most six lines. -/
theorem c3_extract_summary_amended_witness :
    extract_summary "Summary\nx" = joinSep " " (collectSummary (splitLines "Summary\nx") false [])
    ∧ (collectSummary (splitLines "Summary\nx") false []).length ≤ 6 := by
  have h := (c3_extract_summary_amended "Summary\nx").2 (by decide)
  exact ⟨h.1, h.2.1⟩

/-- C4 counterexample: the marker-less response "  x" is its own first
200 characters, yet the extractor returns the stripped "x" — not exactly
the first 200 characters as claimed. -/
theorem c4_counterexample :
    strContains "  x" "Summary" = false
    ∧ strContains "  x" "SUMMARY" = false
    ∧ List.asString (("  x" : String).data.take 200) = "  x"
    ∧ extract_summary "  x" = "x"
    ∧ extract_summary "  x" ≠ List.asString (("  x" : String).data.take 200) := by decide

/-- C4 amended: for a response that is a marker line followed by three
marker-free non-empty lines not starting with a hash sign, the result is
the three lines, each stripped, joined by single spaces; for a response
without the (case-sensitive) marker the result is the first 200
characters stripped of surrounding whitespace. -/
theorem c4_extract_roundtrip_amended (m l1 l2 l3 : String)
    (hm : strContains m "Summary" = true)
    (hmn : '\n' ∉ m.data) (h1n : '\n' ∉ l1.data) (h2n : '\n' ∉ l2.data) (h3n : '\n' ∉ l3.data)
    (h1m : summaryMarker l1 = false) (h2m : summaryMarker l2 = false)
    (h3m : summaryMarker l3 = false)
    (h1s : pyStrip l1 ≠ "") (h2s : pyStrip l2 ≠ "") (h3s : pyStrip l3 ≠ "")
    (h1h : pyStartsWith l1 "#" = false) (h2h : pyStartsWith l2 "#" = false)
    (h3h : pyStartsWith l3 "#" = false) :
    extract_summary (m ++ "\n" ++ l1 ++ "\n" ++ l2 ++ "\n" ++ l3)
      = pyStrip l1 ++ " " ++ pyStrip l2 ++ " " ++ pyStrip l3
    ∧ (∀ s : String, strContains s "Summary" = false → strContains s "SUMMARY" = false →
        extract_summary s = first200trim s) := by
  have hdata : (m ++ "\n" ++ l1 ++ "\n" ++ l2 ++ "\n" ++ l3).data
      = m.data ++ ('\n' :: (l1.data ++ '\n' :: (l2.data ++ '\n' :: l3.data))) := by
    simp [String.data_append]
  have hmarker : summaryMarker (m ++ "\n" ++ l1 ++ "\n" ++ l2 ++ "\n" ++ l3) = true := by
    simp only [summaryMarker, strContains, hdata, Bool.or_eq_true]
    exact Or.inl (listContains_append_left _ _ _ hm)
  have hmm : summaryMarker m = true := by simp [summaryMarker, hm]
  have b1 : (pyStrip l1 != "") = true := bne_iff_ne.mpr h1s
  have b2 : (pyStrip l2 != "") = true := bne_iff_ne.mpr h2s
  have b3 : (pyStrip l3 != "") = true := bne_iff_ne.mpr h3s
  constructor
  · rw [extract_summary, if_pos hmarker]
    rw [splitLines_four m l1 l2 l3 hmn h1n h2n h3n]
    have hc : collectSummary [m, l1, l2, l3] false [] =
        [pyStrip l1, pyStrip l2, pyStrip l3] := by
      simp [collectSummary, hmm, h1m, h2m, h3m, b1, b2, b3, h1h, h2h, h3h]
    rw [hc]
    simp [joinSep, String.append_assoc]
  · intro s hs1 hs2
    have hm0 : summaryMarker s = false := by simp [summaryMarker, hs1, hs2]
    simp [extract_summary, hm0]

/-- C4 amended witness: the response "Summary" followed by the lines
"a", "b", "c" extracts to "a b c". -/
theorem c4_extract_roundtrip_amended_witness :
    extract_summary ("Summary" ++ "\n" ++ "a" ++ "\n" ++ "b" ++ "\n" ++ "c")
      = pyStrip "a" ++ " " ++ pyStrip "b" ++ " " ++ pyStrip "c" := by
  have h := c4_extract_roundtrip_amended "Summary" "a" "b" "c"
    (by decide) (by decide) (by decide) (by decide) (by decide)
    (by decide) (by decide) (by decide) (by decide) (by decide) (by decide)
    (by decide) (by decide) (by decide)
  exact h.1

/-! Helper lemmas for event formatting: `pairLE` is a total,
transitive, antisymmetric order on key/value pairs, so every sorted
permutation of a record is unique and `insertionSort` coincides with
Python `sorted`. -/

instance : IsTrans (String × String) pairLE := by
  constructor
  rintro ⟨a1, a2⟩ ⟨b1, b2⟩ ⟨c1, c2⟩ (h1 | ⟨h1e, h1le⟩) (h2 | ⟨h2e, h2le⟩)
  · exact Or.inl (h1.trans h2)
  · exact Or.inl (by rw [← h2e]; exact h1)
  · exact Or.inl (by rw [h1e]; exact h2)
  · exact Or.inr ⟨h1e.trans h2e, h1le.trans h2le⟩

instance : IsTotal (String × String) pairLE := by
  constructor
  rintro ⟨a1, a2⟩ ⟨b1, b2⟩
  rcases lt_trichotomy a1 b1 with h | h | h
  · exact Or.inl (Or.inl h)
  · rcases le_total a2 b2 with h2 | h2
    · exact Or.inl (Or.inr ⟨h, h2⟩)
    · exact Or.inr (Or.inr ⟨h.symm, h2⟩)
  · exact Or.inr (Or.inl h)

instance : IsAntisymm (String × String) pairLE := by
  constructor
  rintro ⟨a1, a2⟩ ⟨b1, b2⟩ (h1 | ⟨h1e, h1le⟩) (h2 | ⟨h2e, h2le⟩)
  · exact absurd h2 (lt_asymm h1)
  · exfalso; dsimp at h1 h2e; rw [h2e] at h1; exact lt_irrefl _ h1
  · exfalso; dsimp at h2 h1e; rw [h1e] at h2; exact lt_irrefl _ h2
  · dsimp at h1e h1le h2le
    rw [h1e, le_antisymm h1le h2le]

/-- Two records with the same key/value pairs sort identically. -/
theorem insertionSort_perm_eq (l1 l2 : List (String × String)) (h : l1.Perm l2) :
    List.insertionSort pairLE l1 = List.insertionSort pairLE l2 :=
  List.eq_of_perm_of_sorted
    ((List.perm_insertionSort pairLE l1).trans (h.trans (List.perm_insertionSort pairLE l2).symm))
    (List.sorted_insertionSort pairLE l1) (List.sorted_insertionSort pairLE l2)

theorem lookupField_eq_none (l : List (String × String)) (key : String)
    (h : key ∉ l.map Prod.fst) : lookupField l key = none := by
  induction l with
  | nil => rfl
  | cons kv rest ih =>
    obtain ⟨k, v⟩ := kv
    simp only [List.map_cons, List.mem_cons, not_or] at h
    have hk : ¬ k = key := fun he => h.1 he.symm
    simp only [lookupField, if_neg hk]
    exact ih h.2

theorem lookupField_mem (l : List (String × String)) (key v : String)
    (h : lookupField l key = some v) : (key, v) ∈ l := by
  induction l with
  | nil => simp [lookupField] at h
  | cons kv rest ih =>
    obtain ⟨k, w⟩ := kv
    by_cases hk : k = key
    · simp only [lookupField, if_pos hk] at h
      have hw : w = v := by injection h
      subst hk
      subst hw
      exact List.mem_cons_self _ _
    · simp only [lookupField, if_neg hk] at h
      exact List.mem_cons_of_mem _ (ih h)

theorem lookupField_eq_some_of_mem (l : List (String × String)) (key v : String)
    (hmem : (key, v) ∈ l) (hnd : (l.map Prod.fst).Nodup) : lookupField l key = some v := by
  induction l with
  | nil => cases hmem
  | cons kv rest ih =>
    obtain ⟨k, w⟩ := kv
    simp only [List.map_cons, List.nodup_cons] at hnd
    rcases List.mem_cons.mp hmem with he | hm
    · injection he with h1 h2
      subst h1
      subst h2
      simp [lookupField]
    · have hk : k ≠ key := by
        intro he
        subst he
        exact hnd.1 (List.mem_map_of_mem Prod.fst hm)
      simp only [lookupField, if_neg hk]
      exact ih hm hnd.2

/-- Dict lookup is invariant under reordering of a record with distinct
keys (Python dicts always have distinct keys). -/
theorem lookupField_perm (l1 l2 : List (String × String)) (h : l1.Perm l2)
    (hnd : (l1.map Prod.fst).Nodup) (key : String) :
    lookupField l1 key = lookupField l2 key := by
  have hnd2 : (l2.map Prod.fst).Nodup := ((h.map Prod.fst).nodup_iff).mp hnd
  cases hv : lookupField l1 key with
  | none =>
    have hnotin : key ∉ l1.map Prod.fst := by
      intro hin
      rcases List.mem_map.mp hin with ⟨⟨k, w⟩, hkw, hk⟩
      subst hk
      rw [lookupField_eq_some_of_mem l1 _ w hkw hnd] at hv
      cases hv
    rw [lookupField_eq_none l2 key (fun hin => hnotin ((h.map Prod.fst).mem_iff.mpr hin))]
  | some v =>
    exact (lookupField_eq_some_of_mem l2 key v (h.subset (lookupField_mem l1 key v hv)) hnd2).symm

/-- C7: event formatting is deterministic and insertion-order
independent — two records with the same key/value pairs (keys distinct,
as in any Python dict) format identically; the rendered field list is
sorted by the Python pair order, and a pair is rendered iff its key does
not start with an underscore or is one of the allow-listed `_time` and
`_raw`. -/
theorem c7_format_order_independent (e1 e2 : Record) (hperm : e1.Perm e2)
    (hnd : (e1.map Prod.fst).Nodup) :
    format_events [e1] = format_events [e2]
    ∧ List.Sorted pairLE ((List.insertionSort pairLE e1).filter fun kv => keepField kv.1)
    ∧ (∀ kv : String × String,
        kv ∈ (List.insertionSort pairLE e1).filter (fun kv => keepField kv.1) ↔
          (kv ∈ e1 ∧ (pyStartsWith kv.1 "_" = false ∨ kv.1 = "_time" ∨ kv.1 = "_raw"))) := by
  refine ⟨?_, ?_, ?_⟩
  · have hs := insertionSort_perm_eq e1 e2 hperm
    have hl := lookupField_perm e1 e2 hperm hnd "_time"
    simp [format_events, format_event, enumFromOne, joinSep, hs, hl]
  · exact (List.sorted_insertionSort pairLE e1).filter _
  · intro kv
    rw [List.mem_filter, List.mem_insertionSort]
    constructor
    · rintro ⟨hm, hk⟩
      refine ⟨hm, ?_⟩
      have := hk
      simp only [keepField, Bool.or_eq_true, Bool.not_eq_true', beq_iff_eq] at this
      tauto
    · rintro ⟨hm, hk⟩
      refine ⟨hm, ?_⟩
      simp only [keepField, Bool.or_eq_true, Bool.not_eq_true', beq_iff_eq]
      tauto

/-- C7 witness: the same two fields in either insertion order format to
the same text. -/
theorem c7_format_order_independent_witness :
    format_events [[("b", "2"), ("a", "1")]] = format_events [[("a", "1"), ("b", "2")]] := by
  have h := c7_format_order_independent [("b", "2"), ("a", "1")] [("a", "1"), ("b", "2")]
    (by decide) (by decide)
  exact h.1

/-- An input shorter than one chunk is flushed whole as a single
partial chunk. -/
theorem chunksAux_single (n : Nat) :
    ∀ (rs b : List Record), 0 < b.length + rs.length → b.length + rs.length < n →
      chunksAux n b rs = [b ++ rs] := by
  intro rs
  induction rs with
  | nil =>
    intro b h0 hlt
    have hb : ¬ b.isEmpty := by
      cases b
      · simp at h0
      · simp
    simp [chunksAux, hb]
  | cons r rs ih =>
    intro b h0 hlt
    have ht : ¬ (b ++ [r]).length ≥ n := by
      simp only [List.length_append, List.length_cons, List.length_nil]
      simp only [List.length_cons] at hlt
      omega
    simp only [chunksAux, ht, ite_false]
    rw [ih (b ++ [r]) (by simp) (by simp at hlt ⊢; omega)]
    simp

/-- C9 counterexample: with a (validation-bypassing) chunk size of zero
and two input records, the stream flushes after every record — two
per-chunk records plus a FINAL record — not the single partial-flush
record the claim asserts. -/
theorem c9_counterexample :
    ((llmhandlerStream { prompt := "p", analysis_mode := "forensic", chunk_size := 0 }
        { system_prompt := "sp", analysis_mode := "forensic" }
        (fun _ _ => Except.ok "ok") [[("a", "1")], [("b", "2")]]).1).length = 3
    ∧ (((llmhandlerStream { prompt := "p", analysis_mode := "forensic", chunk_size := 0 }
        { system_prompt := "sp", analysis_mode := "forensic" }
        (fun _ _ => Except.ok "ok") [[("a", "1")], [("b", "2")]]).1).getD 0 dummyRecord).llm_chunk = "1"
    ∧ (((llmhandlerStream { prompt := "p", analysis_mode := "forensic", chunk_size := 0 }
        { system_prompt := "sp", analysis_mode := "forensic" }
        (fun _ _ => Except.ok "ok") [[("a", "1")], [("b", "2")]]).1).getD 1 dummyRecord).llm_chunk = "2"
    ∧ (((llmhandlerStream { prompt := "p", analysis_mode := "forensic", chunk_size := 0 }
        { system_prompt := "sp", analysis_mode := "forensic" }
        (fun _ _ => Except.ok "ok") [[("a", "1")], [("b", "2")]]).1).getD 2 dummyRecord).llm_chunk = "FINAL" := by
  decide

/-- C9 amended: the option validator accepts exactly the integers 1..1000
(zero is rejected, so a zero chunk size never reaches the pipeline), and
a non-empty input shorter than one chunk is flushed whole through the
partial-flush path as exactly one emitted record carrying the full event
count.  A chunk size of zero, were it to bypass validation, would
instead flush after every single record. -/
theorem c9_chunk_size_policy :
    chunk_size_valid 0 = false
    ∧ (∀ i : Int, chunk_size_valid i = true ↔ (1 ≤ i ∧ i ≤ 1000))
    ∧ (∀ (cmd : Cmd) (config : Config) (oracle : Oracle) (records : List Record),
        0 < records.length → records.length < cmd.chunk_size →
        chunksAux cmd.chunk_size [] records = [records]
        ∧ ((llmhandlerStream cmd config oracle records).1).length = 1
        ∧ (((llmhandlerStream cmd config oracle records).1).getD 0 dummyRecord).llm_chunk = "1"
        ∧ (((llmhandlerStream cmd config oracle records).1).getD 0 dummyRecord).llm_event_count
            = records.length) := by
  refine ⟨by decide, ?_, ?_⟩
  · intro i
    simp [chunk_size_valid]
  · intro cmd config oracle records h0 hlt
    have hch : chunksAux cmd.chunk_size [] records = [records] := by
      rw [chunksAux_single cmd.chunk_size records [] (by simpa using h0) (by simpa using hlt)]
      simp
    have hb : llmhandlerStream cmd config oracle records
        = runPhase cmd config oracle (chunksAux cmd.chunk_size [] records) 0 "" 0 :=
      streamGo_eq_runPhase cmd config oracle records [] 0 "" 0
    rw [hb, hch]
    have hr1 := runChunks_fst_length cmd config oracle [records] 0 "" 0
    have htot : ¬ (0 + ([records] : List (List Record)).length > 1) := by simp
    simp only [runPhase, if_neg htot]
    refine ⟨trivial, by simpa using hr1, ?_, ?_⟩
    · rw [runChunks_getD cmd config oracle [records] 0 "" 0 0 (by simp)]
      simp only [create_result_record]
      decide
    · rw [runChunks_getD cmd config oracle [records] 0 "" 0 0 (by simp)]
      rcases oracle 0 (((runChunks cmd config oracle [records] 0 "" 0).2).getD 0 "") with e | r
      · simp [create_result_record, process_chunk_result]
      · simp [create_result_record, process_chunk_result]

/-- C9 amended witness: one record with chunk size 10 yields exactly one
emitted record, and the validator accepts 10 but rejects 0. -/
theorem c9_chunk_size_policy_witness :
    chunk_size_valid 0 = false
    ∧ ((llmhandlerStream { prompt := "p", analysis_mode := "forensic", chunk_size := 10 }
        { system_prompt := "sp", analysis_mode := "forensic" }
        (fun _ _ => Except.ok "ok") [[("a", "1")]]).1).length = 1 := by
  have h := c9_chunk_size_policy
  exact ⟨h.1, (h.2.2 { prompt := "p", analysis_mode := "forensic", chunk_size := 10 }
    { system_prompt := "sp", analysis_mode := "forensic" }
    (fun _ _ => Except.ok "ok") [[("a", "1")]] (by decide) (by decide)).2.1⟩

/-- C5: editing the configuration with a non-empty endpoint that fails
the liveness probe raises an error carrying the connection-validation
message (the `BadRequestException` as re-wrapped by the catch-all into
an internal exception) and leaves both persisted files exactly as they
were — `_write_config` is never reached. -/
theorem c5_edit_probe_failure (tags : Except Unit HttpResp) (args : Args) (st : FsState)
    (hep : argsGet args "endpoint" "" ≠ "")
    (hprobe : test_ollama_connection tags = false) :
    handleEdit tags args st
      = (Except.error (HandlerErr.internal
          ("Error updating configuration: Cannot connect to Ollama at "
            ++ argsGet args "endpoint" "")), st) := by
  simp [handleEdit, hep, hprobe]

/-- C5 witness: an unreachable endpoint (transport error on the probe)
leaves the previously persisted file untouched and yields the wrapped
validation error. -/
theorem c5_edit_probe_failure_witness :
    handleEdit (Except.error ()) [("endpoint", "http://dead:11434"), ("model", "mistral")]
        { dfirvault_conf := some "old content", app_conf := none }
      = (Except.error (HandlerErr.internal
          ("Error updating configuration: Cannot connect to Ollama at "
            ++ argsGet [("endpoint", "http://dead:11434"), ("model", "mistral")] "endpoint" "")),
         { dfirvault_conf := some "old content", app_conf := none }) := by
  exact c5_edit_probe_failure (Except.error ())
    [("endpoint", "http://dead:11434"), ("model", "mistral")]
    { dfirvault_conf := some "old content", app_conf := none }
    (by decide) (by decide)

/-- The Python list comprehension over a well-formed model list yields
the name of each entry (or "unknown" when an entry lacks one). -/
theorem extract_model_names_obj (mfs : List (List (String × Json))) :
    List.mapM (fun m => match m with
        | Json.jobj mf => some ((jsonGet mf "name").getD (Json.jstr "unknown"))
        | _ => none) (mfs.map Json.jobj)
      = some (mfs.map fun mf => (jsonGet mf "name").getD (Json.jstr "unknown")) := by
  induction mfs with
  | nil => rfl
  | cons mf rest ih =>
    rw [List.map_cons, List.mapM_cons, ih]
    rfl

/-- C8: the model-listing helper returns the names parsed from the
`models` field on HTTP 200 with a well-formed body, and the empty list
on any failure — transport error, non-200 status, or malformed body; it
is a total function, so no exception escapes to the caller. -/
theorem c8_list_models :
    (∀ u : Unit, fetch_available_models (Except.error u) = [])
    ∧ (∀ r : HttpResp, r.status ≠ 200 → fetch_available_models (Except.ok r) = [])
    ∧ (∀ (u : Unit) (s : Nat), fetch_available_models (Except.ok ⟨s, Except.error u⟩) = [])
    ∧ (∀ body : Json, extract_model_names body = none →
        fetch_available_models (Except.ok ⟨200, Except.ok body⟩) = [])
    ∧ (∀ s : String, fetch_available_models (Except.ok ⟨200, Except.ok (Json.jstr s)⟩) = [])
    ∧ (∀ (fields : List (String × Json)) (mfs : List (List (String × Json))),
        jsonGet fields "models" = some (Json.jarr (mfs.map Json.jobj)) →
        fetch_available_models (Except.ok ⟨200, Except.ok (Json.jobj fields)⟩)
          = mfs.map fun mf => (jsonGet mf "name").getD (Json.jstr "unknown")) := by
  refine ⟨fun u => rfl, ?_, ?_, ?_, ?_, ?_⟩
  · rintro ⟨s, b⟩ h
    simp only [HttpResp.status] at h
    simp [fetch_available_models, h]
  · intro u s
    by_cases hs : s = 200 <;> simp [fetch_available_models, hs]
  · intro body hbody
    simp [fetch_available_models, hbody]
  · intro s
    simp [fetch_available_models, extract_model_names]
  · intro fields mfs hm
    simp only [fetch_available_models, if_pos rfl]
    simp only [extract_model_names, hm, Option.getD_some]
    rw [extract_model_names_obj]
    rfl

/-- C8 witness: a 200 response whose body lists two models, the second
without a name field, parses to the first name and the "unknown"
placeholder; a transport failure parses to the empty list. -/
theorem c8_list_models_witness :
    fetch_available_models (Except.ok ⟨200, Except.ok (Json.jobj
        [("models", Json.jarr [Json.jobj [("name", Json.jstr "mistral")],
                               Json.jobj [("other", Json.jstr "x")]])])⟩)
      = [Json.jstr "mistral", Json.jstr "unknown"]
    ∧ fetch_available_models (Except.error ()) = [] := by
  constructor
  · exact c8_list_models.2.2.2.2.2
      [("models", Json.jarr [Json.jobj [("name", Json.jstr "mistral")],
                             Json.jobj [("other", Json.jstr "x")]])]
      [[("name", Json.jstr "mistral")], [("other", Json.jstr "x")]] rfl
  · exact c8_list_models.1 ()

end DFIRCopilot
